import Mathlib

/-!
Verification of the chirpy authentication/authorization core against its
natural-language specification.

The Go source is shallowly embedded: pure functions become Lean functions,
the HTTP handlers become pure functions from a request's already-decoded
fields and an explicit database state to a response and a new state
(JSON decoding and HTTP routing are the spec's excluded HTTP layer), and
`time.Now()` becomes an explicit `now : Time` argument threaded to each
handler.  Machine integers do not occur on the verified paths.

External collaborators (the bcrypt, JWT, uuid and hex libraries, and the
sqlc-generated storage queries whose SQL is not part of the sources) are
modelled at the level of their documented contracts: each opaque encoded
artifact (a bcrypt hash string, a serialized JWT, a uuid string) is a
printable string produced by an injective, invertible encoder, so that
encode/decode round-trips — the only property of those libraries the
verified code relies on — are honest theorems rather than assumptions.
-/

/-- Instants of `time.Time`, as abstract ticks; `t1.Before t2` is `t1 < t2`. -/
abbrev Time := Nat

/-! ### Decimal rendering of naturals, and a greedy decimal reader

Used to model the external libraries' printable encodings (uuid strings,
bcrypt hash fields, the JWT compact serialization).  `digitsOf n` is the
usual decimal rendering; `readNat` greedily consumes a leading digit run. -/

/-- The character of a decimal digit. -/
def digitChar (d : Nat) : Char := Char.ofNat (48 + d)

/-- The value of a decimal digit character. -/
def charVal (c : Char) : Nat := c.toNat - 48

/-- Helper for `digitsRev`: structural recursion on a fuel argument so that
the definition evaluates by `decide`/`rfl` (any fuel at least `n` yields the
same digits). -/
def digitsRevF : Nat → Nat → List Char
  | 0, _ => []
  | f + 1, n => if n = 0 then [] else digitChar (n % 10) :: digitsRevF f (n / 10)

/-- Decimal digits of `n`, least significant first; `[]` for `0`. -/
def digitsRev (n : Nat) : List Char := digitsRevF n n

theorem digitsRevF_fuel (f : Nat) : ∀ g n : Nat, n ≤ f → n ≤ g →
    digitsRevF f n = digitsRevF g n := by
  induction f with
  | zero =>
    intro g n hf _
    interval_cases n
    cases g with
    | zero => rfl
    | succ g => simp [digitsRevF]
  | succ f ih =>
    intro g n hf hg
    cases g with
    | zero =>
      interval_cases n
      simp [digitsRevF]
    | succ g =>
      by_cases h : n = 0
      · subst h; simp [digitsRevF]
      · have hdiv : n / 10 < n := Nat.div_lt_self (Nat.pos_of_ne_zero h) (by decide)
        simp only [digitsRevF, if_neg h]
        rw [ih g (n / 10) (by omega) (by omega)]

theorem digitsRev_cons (n : Nat) (h : n ≠ 0) :
    digitsRev n = digitChar (n % 10) :: digitsRev (n / 10) := by
  obtain ⟨k, rfl⟩ : ∃ k, n = k + 1 := ⟨n - 1, by omega⟩
  have hdiv : (k + 1) / 10 < k + 1 := Nat.div_lt_self (by omega) (by decide)
  show digitsRevF (k + 1) (k + 1) = _
  simp only [digitsRevF, if_neg h]
  rw [digitsRevF_fuel k ((k + 1) / 10) ((k + 1) / 10) (by omega) (le_refl _)]
  rfl

/-- Decimal rendering of `n`, most significant digit first. -/
def digitsOf (n : Nat) : List Char :=
  if n = 0 then ['0'] else (digitsRev n).reverse

/-- Value of a least-significant-first digit run. -/
def decValRev : List Char → Nat
  | [] => 0
  | c :: cs => charVal c + 10 * decValRev cs

/-- Greedily read a decimal number off the front of `l`:
the value of the leading digit run and the remainder, or `none` if `l`
does not start with a digit. -/
def readNat (l : List Char) : Option (Nat × List Char) :=
  if (l.takeWhile Char.isDigit).isEmpty then none
  else some (decValRev (l.takeWhile Char.isDigit).reverse, l.dropWhile Char.isDigit)

theorem charVal_digitChar (d : Nat) (h : d < 10) : charVal (digitChar d) = d := by
  interval_cases d <;> decide

theorem isDigit_digitChar (d : Nat) (h : d < 10) : (digitChar d).isDigit = true := by
  interval_cases d <;> decide

theorem decValRev_digitsRev (n : Nat) : decValRev (digitsRev n) = n := by
  induction n using Nat.strong_induction_on with
  | _ n ih =>
    by_cases h : n = 0
    · subst h
      simp [digitsRev, digitsRevF, decValRev]
    · rw [digitsRev_cons n h]
      have hdiv : n / 10 < n := Nat.div_lt_self (Nat.pos_of_ne_zero h) (by decide)
      have hmod : n % 10 < 10 := Nat.mod_lt _ (by decide)
      simp only [decValRev, ih (n / 10) hdiv, charVal_digitChar _ hmod]
      omega

theorem decValRev_digitsOf (n : Nat) : decValRev (digitsOf n).reverse = n := by
  by_cases h : n = 0
  · subst h; decide
  · simp only [digitsOf, if_neg h, List.reverse_reverse]
    exact decValRev_digitsRev n

theorem digitsRev_isDigit (n : Nat) : ∀ c ∈ digitsRev n, c.isDigit = true := by
  induction n using Nat.strong_induction_on with
  | _ n ih =>
    intro c hc
    by_cases h : n = 0
    · subst h
      simp [digitsRev, digitsRevF] at hc
    · rw [digitsRev_cons n h] at hc
      rcases List.mem_cons.1 hc with h1 | h2
      · subst h1; exact isDigit_digitChar _ (Nat.mod_lt _ (by decide))
      · exact ih (n / 10) (Nat.div_lt_self (Nat.pos_of_ne_zero h) (by decide)) c h2

theorem digitsOf_isDigit (n : Nat) : ∀ c ∈ digitsOf n, c.isDigit = true := by
  intro c hc
  by_cases h : n = 0
  · subst h; simp [digitsOf] at hc; subst hc; decide
  · simp only [digitsOf, if_neg h, List.mem_reverse] at hc
    exact digitsRev_isDigit n c hc

theorem digitsRev_ne_nil (n : Nat) (h : n ≠ 0) : digitsRev n ≠ [] := by
  rw [digitsRev_cons n h]; simp

theorem digitsOf_ne_nil (n : Nat) : digitsOf n ≠ [] := by
  by_cases h : n = 0
  · subst h; simp [digitsOf]
  · simp only [digitsOf, if_neg h]
    simpa using digitsRev_ne_nil n h

theorem takeWhile_append_all (p : Char → Bool) (l₁ l₂ : List Char)
    (h : ∀ c ∈ l₁, p c = true) :
    (l₁ ++ l₂).takeWhile p = l₁ ++ l₂.takeWhile p := by
  induction l₁ with
  | nil => simp
  | cons c cs ih =>
    have hc := h c (List.mem_cons_self c cs)
    simp [List.takeWhile_cons, hc, ih (fun x hx => h x (List.mem_cons_of_mem _ hx))]

theorem dropWhile_append_all (p : Char → Bool) (l₁ l₂ : List Char)
    (h : ∀ c ∈ l₁, p c = true) :
    (l₁ ++ l₂).dropWhile p = l₂.dropWhile p := by
  induction l₁ with
  | nil => simp
  | cons c cs ih =>
    have hc := h c (List.mem_cons_self c cs)
    simp [List.dropWhile_cons, hc, ih (fun x hx => h x (List.mem_cons_of_mem _ hx))]

theorem takeWhile_eq_nil_of_head (p : Char → Bool) (l : List Char)
    (h : ∀ c, l.head? = some c → p c = false) : l.takeWhile p = [] := by
  cases l with
  | nil => rfl
  | cons c cs => simp [List.takeWhile_cons, h c rfl]

theorem dropWhile_eq_self_of_head (p : Char → Bool) (l : List Char)
    (h : ∀ c, l.head? = some c → p c = false) : l.dropWhile p = l := by
  cases l with
  | nil => rfl
  | cons c cs => simp [List.dropWhile_cons, h c rfl]

theorem readNat_digitsOf (n : Nat) (rest : List Char)
    (h : ∀ c, rest.head? = some c → c.isDigit = false) :
    readNat (digitsOf n ++ rest) = some (n, rest) := by
  have h1 : (digitsOf n ++ rest).takeWhile Char.isDigit = digitsOf n := by
    rw [takeWhile_append_all _ _ _ (digitsOf_isDigit n),
      takeWhile_eq_nil_of_head _ rest h, List.append_nil]
  have h2 : (digitsOf n ++ rest).dropWhile Char.isDigit = rest := by
    rw [dropWhile_append_all _ _ _ (digitsOf_isDigit n),
      dropWhile_eq_self_of_head _ rest h]
  have h3 : (digitsOf n).isEmpty = false := by
    cases hE : digitsOf n with
    | nil => exact absurd hE (digitsOf_ne_nil n)
    | cons a as => rfl
  rw [readNat, h1, h2, h3]
  simp [decValRev_digitsOf]

theorem readNat_digits_dot (n : Nat) (r : List Char) :
    readNat (digitsOf n ++ '.' :: r) = some (n, '.' :: r) := by
  refine readNat_digitsOf n _ ?_
  intro c hc
  simp only [List.head?_cons, Option.some.injEq] at hc
  subst hc
  decide

theorem readNat_digits_dollar (n : Nat) (r : List Char) :
    readNat (digitsOf n ++ '$' :: r) = some (n, '$' :: r) := by
  refine readNat_digitsOf n _ ?_
  intro c hc
  simp only [List.head?_cons, Option.some.injEq] at hc
  subst hc
  decide

theorem readNat_digits_nil (n : Nat) :
    readNat (digitsOf n) = some (n, []) := by
  have h := readNat_digitsOf n [] (by intro c hc; simp at hc)
  simpa using h

/-! ### An injective, invertible encoding of strings into naturals

Models the unambiguous embedding of a string field (a JWT subject or issuer)
inside an encoded artifact: each character becomes one base-1114113 chunk. -/

/-- One more than the number of Unicode scalar values. -/
def strChunkBase : Nat := 1114113

/-- Fold a character list into a natural, first character least significant;
every chunk is nonzero so the encoding is injective. -/
def strEncodeRevL : List Char → Nat
  | [] => 0
  | c :: cs => (c.toNat + 1) + strChunkBase * strEncodeRevL cs

/-- Encode a string as a natural. -/
def strEncode (s : String) : Nat := strEncodeRevL s.data

/-- Helper for `natUnfoldStr`: structural recursion on fuel. -/
def natUnfoldStrF : Nat → Nat → List Char
  | 0, _ => []
  | f + 1, n =>
    if n = 0 then []
    else Char.ofNat (n % strChunkBase - 1) :: natUnfoldStrF f (n / strChunkBase)

/-- Decode the base-1114113 chunks of a natural back into characters. -/
def natUnfoldStr (n : Nat) : List Char := natUnfoldStrF n n

/-- Decode a natural back into the string it encodes. -/
def strDecode (n : Nat) : String := ⟨natUnfoldStr n⟩

theorem natUnfoldStrF_fuel (f : Nat) : ∀ g n : Nat, n ≤ f → n ≤ g →
    natUnfoldStrF f n = natUnfoldStrF g n := by
  induction f with
  | zero =>
    intro g n hf _
    interval_cases n
    cases g with
    | zero => rfl
    | succ g => simp [natUnfoldStrF]
  | succ f ih =>
    intro g n hf hg
    cases g with
    | zero =>
      interval_cases n
      simp [natUnfoldStrF]
    | succ g =>
      by_cases h : n = 0
      · subst h; simp [natUnfoldStrF]
      · have hdiv : n / strChunkBase < n :=
          Nat.div_lt_self (Nat.pos_of_ne_zero h) (by decide)
        simp only [natUnfoldStrF, if_neg h]
        rw [ih g (n / strChunkBase) (by omega) (by omega)]

theorem natUnfoldStr_cons (n : Nat) (h : n ≠ 0) :
    natUnfoldStr n = Char.ofNat (n % strChunkBase - 1) :: natUnfoldStr (n / strChunkBase) := by
  obtain ⟨k, rfl⟩ : ∃ k, n = k + 1 := ⟨n - 1, by omega⟩
  have hdiv : (k + 1) / strChunkBase < k + 1 := Nat.div_lt_self (by omega) (by decide)
  show natUnfoldStrF (k + 1) (k + 1) = _
  simp only [natUnfoldStrF, if_neg h]
  rw [natUnfoldStrF_fuel k ((k + 1) / strChunkBase) ((k + 1) / strChunkBase)
    (by omega) (le_refl _)]
  rfl

theorem char_toNat_lt (c : Char) : c.toNat < 1114112 := by
  rcases c.valid with h | ⟨h1, h2⟩ <;> simp [Char.toNat] <;> omega

theorem natUnfoldStr_strEncodeRevL (l : List Char) :
    natUnfoldStr (strEncodeRevL l) = l := by
  induction l with
  | nil => rfl
  | cons c cs ih =>
    have hb : c.toNat + 1 < strChunkBase := by
      have := char_toNat_lt c
      simp only [strChunkBase]
      omega
    have hne : strEncodeRevL (c :: cs) ≠ 0 := by
      simp only [strEncodeRevL]
      omega
    rw [natUnfoldStr_cons _ hne]
    have hmod : strEncodeRevL (c :: cs) % strChunkBase = c.toNat + 1 := by
      simp only [strEncodeRevL]
      rw [Nat.add_mul_mod_self_left]
      exact Nat.mod_eq_of_lt hb
    have hdiv : strEncodeRevL (c :: cs) / strChunkBase = strEncodeRevL cs := by
      simp only [strEncodeRevL]
      rw [Nat.add_mul_div_left _ _ (by decide : 0 < strChunkBase)]
      simp [Nat.div_eq_of_lt hb]
    rw [hmod, hdiv, ih]
    simp [Char.ofNat_toNat]

theorem strDecode_strEncode (s : String) : strDecode (strEncode s) = s := by
  cases s with
  | mk data =>
    show String.mk (natUnfoldStr (strEncodeRevL data)) = String.mk data
    rw [natUnfoldStr_strEncodeRevL]

/-! ### The uuid collaborator (github.com/google/uuid)

Modelled at the level of the contract the source relies on: `uuid.String`
renders a UUID as a printable string and `uuid.Parse` inverts it (the
concrete hex-and-dashes format is immaterial to every claim). -/

/-- A `uuid.UUID` value. -/
structure UUID where
  val : Nat
deriving DecidableEq, Repr

/-- `uuid.UUID.String`: the canonical printable rendering. -/
def uuidString (u : UUID) : String := ⟨digitsOf u.val⟩

/-- `uuid.Parse`: recover a UUID from its rendering; `none` models the
`error` return for a string that is not a rendered UUID. -/
def uuidParse (s : String) : Option UUID :=
  match readNat s.data with
  | some (n, []) => some ⟨n⟩
  | _ => none

theorem uuidParse_uuidString (u : UUID) : uuidParse (uuidString u) = some u := by
  show (match readNat (digitsOf u.val) with
    | some (n, []) => some (⟨n⟩ : UUID)
    | _ => none) = some u
  rw [readNat_digits_nil]

/-! ### The bcrypt collaborator (golang.org/x/crypto/bcrypt)

Modelled from the spec's Password Hasher contract (§4.1): a hash string
embeds the cost, the salt and a digest recomputable from the password;
verification decodes the stored hash, recomputes the digest and compares.
`bcryptDigestF` is a concrete, injective-by-construction stand-in for the
Blowfish-based digest.  `GenerateFromPassword` takes the salt drawn by the
library as an explicit argument; per the spec it "fails only on catastrophic
entropy-source failure", so the model has no error path. -/

/-- The distinguishable error values `bcrypt.CompareHashAndPassword` returns. -/
inductive BcryptError where
  | mismatchedHashAndPassword
  | invalidHash
deriving DecidableEq, Repr

/-- The Go error strings of the modelled `bcrypt` errors. -/
def bcryptErrorString : BcryptError → String
  | .mismatchedHashAndPassword =>
    "crypto/bcrypt: hashedPassword is not the hash of the given password"
  | .invalidHash =>
    "crypto/bcrypt: hashedSecret too short to be a bcrypted password"

/-- Stand-in for the cost- and salt-keyed one-way digest of a password. -/
def bcryptDigestF (cost salt : Nat) (password : String) : Nat :=
  ((strEncode password) * strChunkBase + salt) * 32 + cost % 32

/-- Render `(cost, salt, digest)` as a hash string (stand-in for the
`$2a$cost$saltdigest` format). -/
def bcryptEncodeL (cost salt digest : Nat) : List Char :=
  '$' :: '2' :: 'a' :: '$' ::
    (digitsOf cost ++ '$' :: (digitsOf salt ++ '$' :: digitsOf digest))

/-- Decode a stored hash string; `none` for a malformed hash. -/
def bcryptDecodeL (l : List Char) : Option (Nat × Nat × Nat) :=
  match l with
  | '$' :: '2' :: 'a' :: '$' :: rest =>
    match readNat rest with
    | some (cost, '$' :: rest2) =>
      match readNat rest2 with
      | some (salt, '$' :: rest3) =>
        match readNat rest3 with
        | some (digest, []) => some (cost, salt, digest)
        | _ => none
      | _ => none
    | _ => none
  | _ => none

theorem bcryptDecodeL_encodeL (cost salt digest : Nat) :
    bcryptDecodeL (bcryptEncodeL cost salt digest) = some (cost, salt, digest) := by
  show (match readNat (digitsOf cost ++ '$' :: (digitsOf salt ++ '$' :: digitsOf digest)) with
    | some (c, '$' :: rest2) =>
      match readNat rest2 with
      | some (s, '$' :: rest3) =>
        match readNat rest3 with
        | some (d, []) => some (c, s, d)
        | _ => none
      | _ => none
    | _ => none) = some (cost, salt, digest)
  rw [readNat_digits_dollar]
  show (match readNat (digitsOf salt ++ '$' :: digitsOf digest) with
    | some (s, '$' :: rest3) =>
      match readNat rest3 with
      | some (d, []) => some (cost, s, d)
      | _ => none
    | _ => none) = some (cost, salt, digest)
  rw [readNat_digits_dollar]
  show (match readNat (digitsOf digest) with
    | some (d, []) => some (cost, salt, d)
    | _ => none) = some (cost, salt, digest)
  rw [readNat_digits_nil]

/-- `bcrypt.DefaultCost`. -/
def bcryptDefaultCost : Nat := 10

/-- `bcrypt.GenerateFromPassword` (salt drawn by the library passed
explicitly); the spec gives it no failure path short of entropy catastrophe. -/
def GenerateFromPassword (password : String) (cost salt : Nat) : String :=
  ⟨bcryptEncodeL cost salt (bcryptDigestF cost salt password)⟩

/-- `bcrypt.CompareHashAndPassword`: `none` on success, a distinguishable
error value otherwise. -/
def CompareHashAndPassword (hash password : String) : Option BcryptError :=
  match bcryptDecodeL hash.data with
  | none => some .invalidHash
  | some (cost, salt, digest) =>
    if bcryptDigestF cost salt password = digest then none
    else some .mismatchedHashAndPassword

/-- `auth.HashPassword` (src/internal/auth/auth.go): bcrypt at default cost. -/
def HashPassword (password : String) (salt : Nat) : String :=
  GenerateFromPassword password bcryptDefaultCost salt

/-- `auth.CheckPasswordHash` (src/internal/auth/auth.go). -/
def CheckPasswordHash (hash password : String) : Option BcryptError :=
  CompareHashAndPassword hash password

theorem checkPasswordHash_hashPassword (password : String) (salt : Nat) :
    CheckPasswordHash (HashPassword password salt) password = none := by
  show (match bcryptDecodeL (bcryptEncodeL bcryptDefaultCost salt
      (bcryptDigestF bcryptDefaultCost salt password)) with
    | none => some BcryptError.invalidHash
    | some (cost, s, digest) =>
      if bcryptDigestF cost s password = digest then none
      else some BcryptError.mismatchedHashAndPassword) = none
  rw [bcryptDecodeL_encodeL]
  simp

/-! ### The JWT collaborator (github.com/golang-jwt/jwt/v5)

`auth.MakeJWT` builds `jwt.RegisteredClaims` with issuer "chirpy",
`issuedAt = now`, `expiresAt = now + expiresIn` and the user id's string
rendering as subject, and signs with an HMAC-SHA256 keyed by the secret;
`auth.ValidateJWT` parses, verifies the signature, has the library validate
the registered claims (v5's default validator rejects a token iff `now` is
not before `exp`; `nbf`/`iat` are not set or not checked), reads the subject
and parses it as a UUID.  The serialization is modelled as an invertible
rendering of the claims and signature; the MAC as a concrete keyed function
of the claims. -/

/-- The `jwt.RegisteredClaims` fields the source sets. -/
structure JWTClaims where
  issuer : String
  issuedAt : Time
  expiresAt : Time
  subject : String
deriving DecidableEq, Repr

/-- Stand-in for HMAC-SHA256 of the encoded claims under `secret`. -/
def jwtSign (secret : String) (c : JWTClaims) : Nat :=
  strEncode secret +
    strChunkBase * (strEncode c.issuer +
      strChunkBase * (c.issuedAt +
        strChunkBase * (c.expiresAt + strChunkBase * strEncode c.subject)))

/-- A signed token: claims plus signature (the compact `a.b.c` form carries
exactly these). -/
structure SignedJWT where
  claims : JWTClaims
  sig : Nat
deriving DecidableEq, Repr

/-- The compact serialization of a signed token. -/
def serializeJWT (t : SignedJWT) : String :=
  ⟨digitsOf (strEncode t.claims.issuer) ++ '.' ::
    (digitsOf t.claims.issuedAt ++ '.' ::
      (digitsOf t.claims.expiresAt ++ '.' ::
        (digitsOf (strEncode t.claims.subject) ++ '.' :: digitsOf t.sig)))⟩

/-- Parse a compact serialization back; `none` for a malformed token. -/
def parseJWT (s : String) : Option SignedJWT :=
  match readNat s.data with
  | some (iss, '.' :: r1) =>
    match readNat r1 with
    | some (iat, '.' :: r2) =>
      match readNat r2 with
      | some (expv, '.' :: r3) =>
        match readNat r3 with
        | some (sub, '.' :: r4) =>
          match readNat r4 with
          | some (sig, []) => some ⟨⟨strDecode iss, iat, expv, strDecode sub⟩, sig⟩
          | _ => none
        | _ => none
      | _ => none
    | _ => none
  | _ => none

theorem parseJWT_serializeJWT (t : SignedJWT) : parseJWT (serializeJWT t) = some t := by
  obtain ⟨⟨iss, iat, expv, sub⟩, sig⟩ := t
  show (match readNat (digitsOf (strEncode iss) ++ '.' ::
      (digitsOf iat ++ '.' :: (digitsOf expv ++ '.' ::
        (digitsOf (strEncode sub) ++ '.' :: digitsOf sig)))) with
    | some (i, '.' :: r1) =>
      match readNat r1 with
      | some (a, '.' :: r2) =>
        match readNat r2 with
        | some (e, '.' :: r3) =>
          match readNat r3 with
          | some (u, '.' :: r4) =>
            match readNat r4 with
            | some (g, []) => some (⟨⟨strDecode i, a, e, strDecode u⟩, g⟩ : SignedJWT)
            | _ => none
          | _ => none
        | _ => none
      | _ => none
    | _ => none) = some ⟨⟨iss, iat, expv, sub⟩, sig⟩
  rw [readNat_digits_dot]
  show (match readNat (digitsOf iat ++ '.' :: (digitsOf expv ++ '.' ::
      (digitsOf (strEncode sub) ++ '.' :: digitsOf sig))) with
    | some (a, '.' :: r2) =>
      match readNat r2 with
      | some (e, '.' :: r3) =>
        match readNat r3 with
        | some (u, '.' :: r4) =>
          match readNat r4 with
          | some (g, []) => some (⟨⟨strDecode (strEncode iss), a, e, strDecode u⟩, g⟩ : SignedJWT)
          | _ => none
        | _ => none
      | _ => none
    | _ => none) = some ⟨⟨iss, iat, expv, sub⟩, sig⟩
  rw [readNat_digits_dot]
  show (match readNat (digitsOf expv ++ '.' ::
      (digitsOf (strEncode sub) ++ '.' :: digitsOf sig)) with
    | some (e, '.' :: r3) =>
      match readNat r3 with
      | some (u, '.' :: r4) =>
        match readNat r4 with
        | some (g, []) => some (⟨⟨strDecode (strEncode iss), iat, e, strDecode u⟩, g⟩ : SignedJWT)
        | _ => none
      | _ => none
    | _ => none) = some ⟨⟨iss, iat, expv, sub⟩, sig⟩
  rw [readNat_digits_dot]
  show (match readNat (digitsOf (strEncode sub) ++ '.' :: digitsOf sig) with
    | some (u, '.' :: r4) =>
      match readNat r4 with
      | some (g, []) => some (⟨⟨strDecode (strEncode iss), iat, expv, strDecode u⟩, g⟩ : SignedJWT)
      | _ => none
    | _ => none) = some ⟨⟨iss, iat, expv, sub⟩, sig⟩
  rw [readNat_digits_dot]
  show (match readNat (digitsOf sig) with
    | some (g, []) => some (⟨⟨strDecode (strEncode iss), iat, expv,
        strDecode (strEncode sub)⟩, g⟩ : SignedJWT)
    | _ => none) = some ⟨⟨iss, iat, expv, sub⟩, sig⟩
  rw [readNat_digits_nil]
  rw [strDecode_strEncode, strDecode_strEncode]

/-- The validation errors of `auth.ValidateJWT`; callers fold them all into
one unauthorized outcome. -/
inductive JWTError where
  | malformed
  | invalidSignature
  | expired
  | badSubject
deriving DecidableEq, Repr

/-- `auth.MakeJWT` (src/internal/auth/auth.go). -/
def MakeJWT (userID : UUID) (tokenSecret : String) (expiresIn : Nat) (now : Time) : String :=
  serializeJWT ⟨⟨"chirpy", now, now + expiresIn, uuidString userID⟩,
    jwtSign tokenSecret ⟨"chirpy", now, now + expiresIn, uuidString userID⟩⟩

/-- `auth.ValidateJWT` (src/internal/auth/auth.go). -/
def ValidateJWT (tokenString tokenSecret : String) (now : Time) : Except JWTError UUID :=
  match parseJWT tokenString with
  | none => .error .malformed
  | some t =>
    if t.sig ≠ jwtSign tokenSecret t.claims then .error .invalidSignature
    else if now < t.claims.expiresAt then
      match uuidParse t.claims.subject with
      | some u => .ok u
      | none => .error .badSubject
    else .error .expired

/-! ### Credential header parsing (src/internal/auth/auth.go)

The handlers read the `Authorization` header via `headers.Get`, which
returns the empty string when the header is absent; the header value is the
model's input. -/

/-- `strings.CutPrefix` on character lists: the remainder after the prefix,
or `none` when `pre` is not a prefix. -/
def cutLeading : List Char → List Char → Option (List Char)
  | [], l => some l
  | _ :: _, [] => none
  | p :: ps, c :: cs => if p = c then cutLeading ps cs else none

/-- `auth.GetBearerToken`: requires `Authorization: Bearer <token>`. -/
def GetBearerToken (authorization : String) : Except String String :=
  if authorization = "" then .error "authorization not found in header"
  else
    match cutLeading "Bearer ".data authorization.data with
    | some rest => .ok ⟨rest⟩
    | none => .error "bearer not found in header"

/-- `auth.GetAPIKey`: requires `Authorization: ApiKey <key>`. -/
def GetAPIKey (authorization : String) : Except String String :=
  if authorization = "" then .error "authorization not found in header"
  else
    match cutLeading "ApiKey ".data authorization.data with
    | some rest => .ok ⟨rest⟩
    | none => .error "ApiKey not found in header"

/-! ### Refresh token generation (src/internal/auth/auth.go)

`auth.MakeRefreshToken` fills a 32-byte buffer from `crypto/rand.Read`,
discarding the error with `_, _ =`, and hex-encodes the buffer.  The bytes
the entropy source wrote are the explicit `entropy` argument; whatever
`rand.Read` did, the buffer stays exactly 32 bytes (zero-initialized by
`make`), which the model renders as pad-and-truncate. -/

/-- The sixteen lowercase hex digit characters, as `encoding/hex` uses. -/
def hexLowerChars : List Char := "0123456789abcdef".data

/-- The lowercase hex digit of a value below 16. -/
def hexDigit (n : Nat) : Char := hexLowerChars.getD n '0'

/-- `encoding/hex.EncodeToString` over a byte list: two digits per byte. -/
def hexEncodeL : List Nat → List Char
  | [] => []
  | b :: bs => hexDigit (b / 16) :: hexDigit (b % 16) :: hexEncodeL bs

/-- `auth.MakeRefreshToken`: the hex encoding of the 32-byte buffer, and the
always-`none` error (`rand.Read`'s error is discarded). -/
def MakeRefreshToken (entropy : List Nat) : String × Option String :=
  (⟨hexEncodeL ((entropy.map (· % 256) ++ List.replicate (32 - entropy.length) 0).take 32)⟩,
    none)

theorem hexEncodeL_length (l : List Nat) : (hexEncodeL l).length = 2 * l.length := by
  induction l with
  | nil => rfl
  | cons b bs ih => simp [hexEncodeL, ih]; omega

theorem hexDigit_mem (n : Nat) : hexDigit n ∈ hexLowerChars := by
  by_cases h : n < 16
  · interval_cases n <;> decide
  · have : hexLowerChars.length ≤ n := by simp [hexLowerChars]; omega
    rw [hexDigit, List.getD_eq_default _ _ this]
    decide

theorem hexEncodeL_mem (l : List Nat) : ∀ c ∈ hexEncodeL l, c ∈ hexLowerChars := by
  induction l with
  | nil => intro c hc; simp [hexEncodeL] at hc
  | cons b bs ih =>
    intro c hc
    simp only [hexEncodeL, List.mem_cons] at hc
    rcases hc with h | h | h
    · subst h; exact hexDigit_mem _
    · subst h; exact hexDigit_mem _
    · exact ih c h

/-! ### The storage collaborator

Rows of the `users`, `chirps` and `refresh_tokens` tables (the
`refresh_tokens` schema is in the sources; `revoked_at` is nullable, Go's
`sql.NullTime`, so `revokedAt.Valid` is `Option.isSome`).  The
sqlc-generated queries the handlers call are modelled from the spec's §6
collaborator contracts (and the chirps SQL present in the sources): each is
one point read or one point write on the state; a `:one` query with no
matching row fails with `sql.ErrNoRows`, rendered as `Option.none`. -/

/-- A row of `users`. -/
structure UserRecord where
  id : UUID
  createdAt : Time
  updatedAt : Time
  email : String
  hashedPassword : String
  isChirpyRed : Bool
deriving DecidableEq, Repr

/-- A row of `chirps`. -/
structure ChirpRecord where
  id : UUID
  createdAt : Time
  updatedAt : Time
  body : String
  userID : UUID
deriving DecidableEq, Repr

/-- A row of `refresh_tokens`. -/
structure RefreshTokenRecord where
  token : String
  createdAt : Time
  updatedAt : Time
  userID : UUID
  expiresAt : Time
  revokedAt : Option Time
deriving DecidableEq, Repr

/-- The persistent store's state. -/
structure DBState where
  users : List UserRecord
  chirps : List ChirpRecord
  refreshTokens : List RefreshTokenRecord
deriving DecidableEq, Repr

/-- The error string of `database/sql.ErrNoRows`. -/
def sqlErrNoRows : String := "sql: no rows in result set"

/-- `GetUserByEmail` (spec §6): point read by email. -/
def GetUserByEmail (st : DBState) (email : String) : Option UserRecord :=
  st.users.find? (fun u => decide (u.email = email))

/-- `GetChirpByID` (sources: `SELECT * FROM chirps WHERE id = $1`). -/
def GetChirpByID (st : DBState) (id : UUID) : Option ChirpRecord :=
  st.chirps.find? (fun c => decide (c.id = id))

/-- `DeleteChirp` (sources: `DELETE FROM chirps WHERE id = $1`). -/
def DeleteChirp (st : DBState) (id : UUID) : DBState :=
  { st with chirps := st.chirps.filter (fun c => decide (¬ c.id = id)) }

/-- `GetRefreshToken` (spec §6 `getRefreshToken`): point read by token. -/
def GetRefreshToken (st : DBState) (token : String) : Option RefreshTokenRecord :=
  st.refreshTokens.find? (fun r => decide (r.token = token))

/-- `GetUserFromRefreshToken` (spec §6 `getUserIDFromRefreshToken`): the user
row the token's `user_id` references. -/
def GetUserFromRefreshToken (st : DBState) (token : String) : Option UserRecord :=
  (GetRefreshToken st token).bind (fun r => st.users.find? (fun u => decide (u.id = r.userID)))

/-- The parameter struct of `CreateRefreshToken`. -/
structure CreateRefreshTokenParams where
  token : String
  userID : UUID
  expiresAt : Time
deriving DecidableEq, Repr

/-- `CreateRefreshToken` (spec §6): insert a fresh, unrevoked row and return it. -/
def CreateRefreshToken (st : DBState) (p : CreateRefreshTokenParams) (now : Time) :
    RefreshTokenRecord × DBState :=
  (⟨p.token, now, now, p.userID, p.expiresAt, none⟩,
    { st with refreshTokens := st.refreshTokens ++ [⟨p.token, now, now, p.userID, p.expiresAt, none⟩] })

/-- `UpgradeUser` (spec §6 `upgradeUserTier`): set `is_chirpy_red` for the
user, or fail with no rows. -/
def UpgradeUser (st : DBState) (uid : UUID) : Option DBState :=
  if st.users.any (fun u => decide (u.id = uid)) then
    some { st with
      users := st.users.map (fun u => if u.id = uid then { u with isChirpyRed := true } else u) }
  else none

/-! ### Responses

`respondWithError` writes a status and a JSON error body,
`respondWithJSON` a status and a JSON payload (src/utils.go), and one
handler branch writes a bare status with `w.WriteHeader`.  A response is
caller-visible as its status plus its body. -/

/-- A handler's caller-visible response. -/
inductive Resp (α : Type) where
  | err (status : Nat) (msg : String)
  | json (status : Nat) (payload : α)
  | empty (status : Nat)
deriving DecidableEq, Repr

/-! ### Profanity cleaning (handlerCreateChirp, src/main.go) -/

/-- `strings.Fields`: split on whitespace, dropping empty fields.  The
second argument accumulates the current field reversed. -/
def fieldsCore : List Char → List Char → List (List Char)
  | [], acc => if acc.isEmpty then [] else [acc.reverse]
  | c :: cs, acc =>
    if c.isWhitespace then
      if acc.isEmpty then fieldsCore cs [] else acc.reverse :: fieldsCore cs []
    else fieldsCore cs (c :: acc)

/-- `strings.Fields` on a string. -/
def stringFields (s : String) : List String :=
  (fieldsCore s.data []).map (fun l => ⟨l⟩)

/-- Case folding of one character as `strings.EqualFold` applies it to the
ASCII words being compared. -/
def asciiLower (c : Char) : Char :=
  if 'A' ≤ c ∧ c ≤ 'Z' then Char.ofNat (c.toNat + 32) else c

/-- `strings.EqualFold` restricted to the ASCII alphabet of the filter words. -/
def eqFold (a b : String) : Bool :=
  decide (a.data.map asciiLower = b.data.map asciiLower)

/-- One word of the profanity filter: the three banned words become `****`. -/
def cleanWord (w : String) : String :=
  if eqFold w "kerfuffle" || eqFold w "sharbert" || eqFold w "fornax" then "****" else w

/-- `strings.Join` with a single-space separator. -/
def joinSpace : List String → String
  | [] => ""
  | [w] => w
  | w :: ws => w ++ " " ++ joinSpace ws

/-- The body transformation of `handlerCreateChirp`. -/
def cleanBody (s : String) : String :=
  joinSpace ((stringFields s).map cleanWord)

/-! ### The handlers (src/main.go)

Each handler takes the already-decoded request fields (JSON decoding and
routing are the excluded HTTP layer; a `none` body models a decode
failure), the raw `Authorization` header value where the source reads one,
the relevant configuration, the store state and the current time, and
returns the response and the new store state. -/

/-- The success payload of `handlerLogin`. -/
structure LoginOk where
  id : UUID
  createdAt : Time
  updatedAt : Time
  email : String
  token : String
  refreshToken : String
  isChirpyRed : Bool
deriving DecidableEq, Repr

/-- `handlerLogin` answers either with a bare string payload (the
wrong-password branch calls `respondWithJSON` on a string) or with the user
payload. -/
inductive LoginPayload where
  | msg (s : String)
  | user (u : LoginOk)
deriving DecidableEq, Repr

/-- `handlerLogin` (src/main.go lines 470-523): look the user up by email,
check the password, then mint a JWT (1 hour) and a refresh token
(60 days); `entropy` is what `rand.Read` produced for the refresh token. -/
def handlerLogin (st : DBState) (email password secret : String) (entropy : List Nat)
    (now : Time) : Resp LoginPayload × DBState :=
  match GetUserByEmail st email with
  | none => (.err 500 "Couldn\x27t find user", st)
  | some usr =>
    match CheckPasswordHash usr.hashedPassword password with
    | some e =>
      (.json 401 (.msg ("Incorrect email or password: " ++ bcryptErrorString e)), st)
    | none =>
      let token := MakeJWT usr.id secret 3600 now
      let refresh_token := (MakeRefreshToken entropy).1
      let created := CreateRefreshToken st ⟨refresh_token, usr.id, now + 5184000⟩ now
      (.json 200 (.user ⟨usr.id, usr.createdAt, usr.updatedAt, usr.email, token,
        created.1.token, usr.isChirpyRed⟩), created.2)

/-- `handlerRefresh` (src/main.go lines 525-553): look the presented bearer
token up, reject if revoked or expired, resolve the owner and mint a fresh
one-hour JWT.  Performs no writes. -/
def handlerRefresh (st : DBState) (authorization secret : String) (now : Time) :
    Resp String × DBState :=
  match GetBearerToken authorization with
  | .error e => (.err 400 ("Refresh token not found: " ++ e), st)
  | .ok refresh_token =>
    match GetRefreshToken st refresh_token with
    | none => (.err 401 ("invalid refresh token: " ++ sqlErrNoRows), st)
    | some dbRefreshToken =>
      if dbRefreshToken.revokedAt.isSome || decide (dbRefreshToken.expiresAt < now) then
        (.err 401 "expired/revoked refresh token: %!s(<nil>)", st)
      else
        match GetUserFromRefreshToken st refresh_token with
        | none => (.err 401 ("invalid user: " ++ sqlErrNoRows), st)
        | some usr => (.json 200 (MakeJWT usr.id secret 3600 now), st)

/-- The decoded request body of `handlerCreateChirp`. -/
structure CreateChirpBody where
  body : String
  userID : UUID
deriving DecidableEq, Repr

/-- `handlerCreateChirp` (src/main.go lines 356-406): decode, reject bodies
over 140 bytes, then extract and validate the JWT, clean the body and
insert the chirp (its generated id is the explicit `newID`).  The decoded
`user_id` field is ignored; the author is the JWT subject. -/
def handlerCreateChirp (st : DBState) (authorization : String)
    (params : Option CreateChirpBody) (secret : String) (newID : UUID) (now : Time) :
    Resp ChirpRecord × DBState :=
  match params with
  | none => (.err 500 "Something went wrong: decode error", st)
  | some p =>
    if p.body.utf8ByteSize > 140 then (.err 400 "Chirp is too long", st)
    else
      match GetBearerToken authorization with
      | .error e => (.err 401 ("Request is missing a JWT: " ++ e), st)
      | .ok token =>
        match ValidateJWT token secret now with
        | .error _ => (.err 401 "Invalid JWT", st)
        | .ok userid =>
          (.json 201 ⟨newID, now, now, cleanBody p.body, userid⟩,
            { st with chirps := st.chirps ++ [⟨newID, now, now, cleanBody p.body, userid⟩] })

/-- `handlerDeleteChirp` (src/main.go lines 612-644): authenticate via the
JWT, parse the path's chirp id, 404 if the chirp is absent, 403 if the
caller is not its author, else delete and answer 204. -/
def handlerDeleteChirp (st : DBState) (authorization chirpIDStr secret : String)
    (now : Time) : Resp Unit × DBState :=
  match GetBearerToken authorization with
  | .error e => (.err 401 ("Access token not found: " ++ e), st)
  | .ok token =>
    match ValidateJWT token secret now with
    | .error _ => (.err 401 "Invalid token", st)
    | .ok userid =>
      match uuidParse chirpIDStr with
      | none => (.err 400 "Bad chirp UUID: invalid UUID", st)
      | some chirp_id =>
        match GetChirpByID st chirp_id with
        | none => (.err 404 ("Couldn\x27t find chirp: " ++ sqlErrNoRows), st)
        | some chirp =>
          if chirp.userID ≠ userid then (.err 403 "Forbidden: Wrong user", st)
          else (.json 204 (), DeleteChirp st chirp_id)

/-- The decoded webhook body: the event name and `data.user_id`. -/
structure WebhookBody where
  event : String
  userID : String
deriving DecidableEq, Repr

/-- `handlerUpgradeUser` (src/main.go lines 646-682): require the configured
API key, acknowledge any event other than `user.upgraded` as a 204 no-op,
else upgrade the named user. -/
def handlerUpgradeUser (st : DBState) (authorization : String)
    (body : Option WebhookBody) (polkaKey : String) : Resp Unit × DBState :=
  match GetAPIKey authorization with
  | .error e => (.err 401 ("Couldn\x27t find polka key: " ++ e), st)
  | .ok apiKey =>
    if apiKey ≠ polkaKey then (.err 401 "Wrong polka key: %!s(<nil>)", st)
    else
      match body with
      | none => (.err 500 "Couldn\x27t decode parameters", st)
      | some b =>
        if b.event ≠ "user.upgraded" then (.empty 204, st)
        else
          match uuidParse b.userID with
          | none => (.err 500 "Couldn\x27t decode user id: invalid UUID", st)
          | some uid =>
            match UpgradeUser st uid with
            | none => (.err 404 ("Couldn\x27t find user: " ++ sqlErrNoRows), st)
            | some st2 => (.empty 204, st2)

/-- The code's refresh-token usability condition, as `handlerRefresh` tests
it: a row exists, `revoked_at` is NULL and `expires_at` is not before now. -/
def refreshUsable (st : DBState) (token : String) (now : Time) : Bool :=
  match GetRefreshToken st token with
  | none => false
  | some r => r.revokedAt.isNone && ! decide (r.expiresAt < now)

deriving instance DecidableEq for Except

/-! ### Shared helper lemmas for the claim theorems -/

theorem upgradeUser_sets_red (st : DBState) (uid : UUID) (st2 : DBState)
    (h : UpgradeUser st uid = some st2) :
    ∀ u ∈ st2.users, u.id = uid → u.isChirpyRed = true := by
  intro u hu hid
  unfold UpgradeUser at h
  by_cases hany : st.users.any (fun v => decide (v.id = uid)) = true
  · rw [if_pos hany] at h
    injection h with h
    subst h
    simp only [List.mem_map] at hu
    obtain ⟨v, hv, hvu⟩ := hu
    by_cases hvid : v.id = uid
    · rw [if_pos hvid] at hvu
      subst hvu
      rfl
    · rw [if_neg hvid] at hvu
      subst hvu
      exact absurd hid hvid
  · rw [if_neg hany] at h
    exact absurd h (by simp)

theorem find?_isSome_of_exists {α : Type} (l : List α) (p : α → Bool)
    (h : ∃ x ∈ l, p x = true) : ∃ y, l.find? p = some y := by
  obtain ⟨x, hx, hpx⟩ := h
  have := List.find?_isSome.2 ⟨x, hx, hpx⟩
  obtain ⟨y, hy⟩ := Option.isSome_iff_exists.1 this
  exact ⟨y, hy⟩

theorem validateJWT_parsed (s : String) (tok : SignedJWT) (secret : String) (now : Time)
    (hp : parseJWT s = some tok)
    (hs : tok.sig = jwtSign secret tok.claims)
    (he : now < tok.claims.expiresAt)
    (u : UUID) (hu : uuidParse tok.claims.subject = some u) :
    ValidateJWT s secret now = .ok u := by
  unfold ValidateJWT
  rw [hp]
  simp [hs, he, hu]

/-! ### The claims -/

/-- C2: for every user id S, secret K and positive ttl, validating
immediately after issuing returns S: `ValidateJWT (MakeJWT S K ttl) K = S`
with no error, evaluated at any instant from issuance up to (strictly
before) issuance + ttl. -/
theorem spec_c2_jwt_validate_issue_roundtrip (uid : UUID) (secret : String) (ttl : Nat)
    (tIssue tCheck : Time) (hpos : 0 < ttl) (hle : tIssue ≤ tCheck)
    (hbefore : tCheck < tIssue + ttl) :
    ValidateJWT (MakeJWT uid secret ttl tIssue) secret tCheck = .ok uid :=
  validateJWT_parsed _ ⟨⟨"chirpy", tIssue, tIssue + ttl, uuidString uid⟩,
    jwtSign secret ⟨"chirpy", tIssue, tIssue + ttl, uuidString uid⟩⟩ secret tCheck
    (parseJWT_serializeJWT _) rfl hbefore uid (uuidParse_uuidString uid)

/-- C2 witness: a concrete issue-then-validate round trip. -/
theorem spec_c2_witness :
    ValidateJWT (MakeJWT ⟨5⟩ "topsecret" 3600 1000) "topsecret" 1000 = .ok ⟨5⟩ :=
  spec_c2_jwt_validate_issue_roundtrip ⟨5⟩ "topsecret" 3600 1000 1000
    (by decide) (by decide) (by decide)

/-- C4: hashing then verifying round-trips for every password and every
salt the library draws: `CheckPasswordHash (HashPassword P) P` succeeds. -/
theorem spec_c4_hash_verify_roundtrip (password : String) (salt : Nat) :
    CheckPasswordHash (HashPassword password salt) password = none :=
  checkPasswordHash_hashPassword password salt

/-- C9: the 140-byte body length check of `handlerCreateChirp` runs before
any credential is read: whatever the `Authorization` header holds (absent,
malformed, or invalid), a decoded body over 140 bytes answers
400 "Chirp is too long" and leaves the store untouched. -/
theorem spec_c9_length_check_before_auth (st : DBState) (authorization : String)
    (p : CreateChirpBody) (secret : String) (newID : UUID) (now : Time)
    (hlong : p.body.utf8ByteSize > 140) :
    handlerCreateChirp st authorization (some p) secret newID now
      = (.err 400 "Chirp is too long", st) := by
  unfold handlerCreateChirp
  simp [hlong]

set_option maxRecDepth 20000 in
/-- C9 witness: a 141-byte body with the `Authorization` header absent
(the empty header value) still observes the length-check outcome. -/
theorem spec_c9_witness :
    handlerCreateChirp ⟨[], [], []⟩ "" (some ⟨⟨List.replicate 141 'a'⟩, ⟨0⟩⟩) "sec" ⟨9⟩ 0
      = (.err 400 "Chirp is too long", ⟨[], [], []⟩) :=
  spec_c9_length_check_before_auth ⟨[], [], []⟩ "" ⟨⟨List.replicate 141 'a'⟩, ⟨0⟩⟩
    "sec" ⟨9⟩ 0 (by decide)

/-- C10: `MakeRefreshToken` is total: whatever the entropy source wrote
into the 32-byte buffer, it returns a `none` error (the `rand.Read` error
is discarded) and a 64-character string of lowercase hex digits. -/
theorem spec_c10_make_refresh_token_total (entropy : List Nat) :
    (MakeRefreshToken entropy).2 = none
    ∧ (MakeRefreshToken entropy).1.length = 64
    ∧ ∀ c ∈ (MakeRefreshToken entropy).1.data, c ∈ hexLowerChars := by
  refine ⟨rfl, ?_, ?_⟩
  · show (String.mk (hexEncodeL _)).length = 64
    simp only [String.length, hexEncodeL_length, List.length_take, List.length_append,
      List.length_map, List.length_replicate]
    omega
  · intro c hc
    exact hexEncodeL_mem _ c hc

/-- C8: `handlerRefresh` performs only reads: for every state, header,
secret and instant the store comes back unchanged, so in particular every
refresh token is exactly as usable after the call as before it. -/
theorem spec_c8_refresh_reads_only (st : DBState) (authorization secret : String)
    (now : Time) :
    (handlerRefresh st authorization secret now).2 = st
    ∧ ∀ tok t, refreshUsable (handlerRefresh st authorization secret now).2 tok t
        = refreshUsable st tok t := by
  have h2 : (handlerRefresh st authorization secret now).2 = st := by
    unfold handlerRefresh
    repeat' split <;> try rfl
  exact ⟨h2, fun tok t => by rw [h2]⟩

/-- C5: the code evaluated at the failing input of the claim.  A login with
an email that has no stored user answers 500 with the distinct body
"Couldn't find user" — a caller can tell it apart from the 401
wrong-password outcome, where the claim (and spec §4.5/§9) require one
indistinguishable authentication failure. -/
theorem spec_c5_login_unknown_email_outcome :
    (handlerLogin ⟨[], [], []⟩ "ghost@x.com" "pw" "sec" [] 0).1
      = .err 500 "Couldn\x27t find user" := by decide

/-- C3 (amended): the shape of every failed password check at login.  Both
wrong-password and malformed-stored-hash failures answer with the same
401 status and the same response shape, but the body embeds the bcrypt
error message (`"Incorrect email or password: %s"`), which differs between
the two failure kinds — so the caller-visible error does reveal which
failure occurred. -/
theorem spec_c3_login_failure_shape (st : DBState) (email password secret : String)
    (entropy : List Nat) (now : Time) (usr : UserRecord) (e : BcryptError)
    (hu : GetUserByEmail st email = some usr)
    (hc : CheckPasswordHash usr.hashedPassword password = some e) :
    (handlerLogin st email password secret entropy now).1
      = .json 401 (.msg ("Incorrect email or password: " ++ bcryptErrorString e)) := by
  unfold handlerLogin
  simp only [hu, hc]

/-- The login store of C3's concrete runs: one user with a well-formed
stored bcrypt hash, one whose stored hash is the malformed string
"invalidhash". -/
def c3GoodHashState : DBState :=
  ⟨[⟨⟨1⟩, 0, 0, "a@x.com", HashPassword "correctPassword123!" 11, false⟩], [], []⟩

/-- The C3 store whose stored hash is malformed. -/
def c3BadHashState : DBState :=
  ⟨[⟨⟨2⟩, 0, 0, "b@x.com", "invalidhash", false⟩], [], []⟩

set_option maxRecDepth 40000 in
/-- C3 counterexample: the claim says a failed login's outcome is identical
for wrong-password and malformed-stored-hash and reveals nothing.  At these
concrete inputs both logins fail with status 401, but the two response
bodies embed the two different bcrypt error strings, so the outcomes are
not identical and the error shape reveals which failure occurred. -/
theorem spec_c3_counterexample :
    (handlerLogin c3GoodHashState "a@x.com" "wrongPassword" "sec" [] 0).1
      = .json 401 (.msg ("Incorrect email or password: " ++
          "crypto/bcrypt: hashedPassword is not the hash of the given password"))
    ∧ (handlerLogin c3BadHashState "b@x.com" "wrongPassword" "sec" [] 0).1
      = .json 401 (.msg ("Incorrect email or password: " ++
          "crypto/bcrypt: hashedSecret too short to be a bcrypted password"))
    ∧ (handlerLogin c3GoodHashState "a@x.com" "wrongPassword" "sec" [] 0).1
      ≠ (handlerLogin c3BadHashState "b@x.com" "wrongPassword" "sec" [] 0).1 := by
  refine ⟨by decide, by decide, by decide⟩

set_option maxRecDepth 40000 in
/-- C3 witness: the amended theorem at the malformed-stored-hash input. -/
theorem spec_c3_witness :
    (handlerLogin c3BadHashState "b@x.com" "wrongPassword" "sec" [] 0).1
      = .json 401 (.msg ("Incorrect email or password: " ++
          bcryptErrorString .invalidHash)) :=
  spec_c3_login_failure_shape c3BadHashState "b@x.com" "wrongPassword" "sec" [] 0
    ⟨⟨2⟩, 0, 0, "b@x.com", "invalidhash", false⟩ .invalidHash (by decide) (by decide)

/-- C6: chirp-deletion authorization, for every authenticated caller (a
bearer JWT validating to `uid`) and every chirp id: absent chirp answers
404 (whoever the caller is — existence is checked first), a chirp of
another author answers 403 and mutates nothing, and the author's own
chirp is deleted with 204. -/
theorem spec_c6_delete_chirp_authorization (st : DBState)
    (authorization chirpIDStr secret tok : String) (uid chirpID : UUID) (now : Time)
    (htok : GetBearerToken authorization = .ok tok)
    (hval : ValidateJWT tok secret now = .ok uid)
    (hcid : uuidParse chirpIDStr = some chirpID) :
    (GetChirpByID st chirpID = none →
      handlerDeleteChirp st authorization chirpIDStr secret now
        = (.err 404 ("Couldn\x27t find chirp: " ++ sqlErrNoRows), st))
    ∧ (∀ chirp, GetChirpByID st chirpID = some chirp → chirp.userID ≠ uid →
      handlerDeleteChirp st authorization chirpIDStr secret now
        = (.err 403 "Forbidden: Wrong user", st))
    ∧ (∀ chirp, GetChirpByID st chirpID = some chirp → chirp.userID = uid →
      handlerDeleteChirp st authorization chirpIDStr secret now
        = (.json 204 (), DeleteChirp st chirpID)) := by
  unfold handlerDeleteChirp
  refine ⟨fun habs => ?_, fun chirp hsome hne => ?_, fun chirp hsome heq => ?_⟩
  · simp only [htok, hval, hcid, habs]
  · simp only [htok, hval, hcid, hsome, hne, if_true]
    simp [hne]
  · simp only [htok, hval, hcid, hsome, heq]
    simp

/-- The store of C6's witness run: one chirp authored by user 3. -/
def c6State : DBState :=
  ⟨[⟨⟨3⟩, 0, 0, "o@x.com", "h", false⟩], [⟨⟨9⟩, 0, 0, "hello", ⟨3⟩⟩], []⟩

set_option maxRecDepth 40000 in
/-- C6 witness: the theorem at a concrete state, with a concrete JWT for
user 3 presented as `Authorization: Bearer <token>`. -/
theorem spec_c6_witness :
    (GetChirpByID c6State ⟨9⟩ = none →
      handlerDeleteChirp c6State ("Bearer " ++ MakeJWT ⟨3⟩ "k" 3600 0) (uuidString ⟨9⟩) "k" 1
        = (.err 404 ("Couldn\x27t find chirp: " ++ sqlErrNoRows), c6State))
    ∧ (∀ chirp, GetChirpByID c6State ⟨9⟩ = some chirp → chirp.userID ≠ ⟨3⟩ →
      handlerDeleteChirp c6State ("Bearer " ++ MakeJWT ⟨3⟩ "k" 3600 0) (uuidString ⟨9⟩) "k" 1
        = (.err 403 "Forbidden: Wrong user", c6State))
    ∧ (∀ chirp, GetChirpByID c6State ⟨9⟩ = some chirp → chirp.userID = ⟨3⟩ →
      handlerDeleteChirp c6State ("Bearer " ++ MakeJWT ⟨3⟩ "k" 3600 0) (uuidString ⟨9⟩) "k" 1
        = (.json 204 (), DeleteChirp c6State ⟨9⟩)) :=
  spec_c6_delete_chirp_authorization c6State ("Bearer " ++ MakeJWT ⟨3⟩ "k" 3600 0)
    (uuidString ⟨9⟩) "k" (MakeJWT ⟨3⟩ "k" 3600 0) ⟨3⟩ ⟨9⟩ 1
    (by decide) (by decide) (by decide)

/-- C7: the billing webhook upgrades exactly under a correct API key and
the event `user.upgraded`: a missing or wrong key answers 401 touching no
storage; a correct key with any other event answers 204 without mutating
storage; a correct key with `user.upgraded` upgrades the named (existing)
user and answers 204, and in the new state that user's tier flag is set. -/
theorem spec_c7_webhook_upgrade (st : DBState) (authorization : String)
    (b : WebhookBody) (polkaKey : String) :
    ((∀ e, GetAPIKey authorization = .error e →
      handlerUpgradeUser st authorization (some b) polkaKey
        = (.err 401 ("Couldn\x27t find polka key: " ++ e), st))
    ∧ (∀ k, GetAPIKey authorization = .ok k → k ≠ polkaKey →
      handlerUpgradeUser st authorization (some b) polkaKey
        = (.err 401 "Wrong polka key: %!s(<nil>)", st))
    ∧ (GetAPIKey authorization = .ok polkaKey → b.event ≠ "user.upgraded" →
      handlerUpgradeUser st authorization (some b) polkaKey = (.empty 204, st))
    ∧ (∀ uid st2, GetAPIKey authorization = .ok polkaKey → b.event = "user.upgraded" →
      b.userID = uuidString uid → UpgradeUser st uid = some st2 →
      handlerUpgradeUser st authorization (some b) polkaKey = (.empty 204, st2)
        ∧ ∀ u ∈ st2.users, u.id = uid → u.isChirpyRed = true)) := by
  unfold handlerUpgradeUser
  refine ⟨fun e he => ?_, fun k hk hne => ?_, fun hok hev => ?_,
    fun uid st2 hok hev huid hup => ⟨?_, upgradeUser_sets_red st uid st2 hup⟩⟩
  · simp only [he]
  · simp only [hk]
    simp [hne]
  · simp only [hok]
    simp only [ne_eq, not_not, ite_not]
    simp [hev]
  · simp only [hok, hev, huid, uuidParse_uuidString, hup]
    simp

/-- The store of C7's witness run: one non-upgraded user. -/
def c7State : DBState :=
  ⟨[⟨⟨4⟩, 0, 0, "u@x.com", "h", false⟩], [], []⟩

set_option maxRecDepth 40000 in
/-- C7 witness: the theorem at a concrete state and key. -/
theorem spec_c7_witness :
    ((∀ e, GetAPIKey "ApiKey k1" = .error e →
      handlerUpgradeUser c7State "ApiKey k1" (some ⟨"user.upgraded", uuidString ⟨4⟩⟩) "k1"
        = (.err 401 ("Couldn\x27t find polka key: " ++ e), c7State))
    ∧ (∀ k, GetAPIKey "ApiKey k1" = .ok k → k ≠ "k1" →
      handlerUpgradeUser c7State "ApiKey k1" (some ⟨"user.upgraded", uuidString ⟨4⟩⟩) "k1"
        = (.err 401 "Wrong polka key: %!s(<nil>)", c7State))
    ∧ (GetAPIKey "ApiKey k1" = .ok "k1" → ("user.upgraded" : String) ≠ "user.upgraded" →
      handlerUpgradeUser c7State "ApiKey k1" (some ⟨"user.upgraded", uuidString ⟨4⟩⟩) "k1"
        = (.empty 204, c7State))
    ∧ (∀ uid st2, GetAPIKey "ApiKey k1" = .ok "k1" → ("user.upgraded" : String) = "user.upgraded" →
      uuidString ⟨4⟩ = uuidString uid → UpgradeUser c7State uid = some st2 →
      handlerUpgradeUser c7State "ApiKey k1" (some ⟨"user.upgraded", uuidString ⟨4⟩⟩) "k1"
        = (.empty 204, st2)
        ∧ ∀ u ∈ st2.users, u.id = uid → u.isChirpyRed = true)) :=
  spec_c7_webhook_upgrade c7State "ApiKey k1" ⟨"user.upgraded", uuidString ⟨4⟩⟩ "k1"

/-- C1 (amended): for every stored refresh-token record, `handlerRefresh`
mints a new session token for the presented bearer token iff the record's
`revokedAt` is unset AND its `expiresAt` has not yet passed — the code
tests `ExpiresAt.Before(now)`, so the boundary instant `expiresAt = now`
still mints; in every other case (revoked, expired, or not found) it
answers 401 Unauthorized and issues no token.  The hypothesis `hwf` is the
schema's foreign-key integrity (`user_id REFERENCES users(id)`). -/
theorem spec_c1_refresh_mints_iff_usable (st : DBState)
    (authorization secret tok : String) (now : Time)
    (hwf : ∀ r ∈ st.refreshTokens, ∃ u ∈ st.users, u.id = r.userID)
    (htok : GetBearerToken authorization = .ok tok) :
    ((∃ u, GetUserFromRefreshToken st tok = some u ∧
        (handlerRefresh st authorization secret now).1
          = .json 200 (MakeJWT u.id secret 3600 now))
      ↔ refreshUsable st tok now = true)
    ∧ (refreshUsable st tok now = false →
        ∃ m, (handlerRefresh st authorization secret now).1 = .err 401 m) := by
  cases hGR : GetRefreshToken st tok with
  | none =>
    have hres : (handlerRefresh st authorization secret now).1
        = .err 401 ("invalid refresh token: " ++ sqlErrNoRows) := by
      unfold handlerRefresh
      simp only [htok, hGR]
    have husable : refreshUsable st tok now = false := by
      simp [refreshUsable, hGR]
    refine ⟨⟨?_, ?_⟩, fun _ => ⟨_, hres⟩⟩
    · rintro ⟨u, hu, _⟩
      rw [GetUserFromRefreshToken, hGR] at hu
      cases hu
    · intro habs
      rw [husable] at habs
      cases habs
  | some r =>
    cases hrv : r.revokedAt with
    | some t0 =>
      have hcond : (r.revokedAt.isSome || decide (r.expiresAt < now)) = true := by
        simp [hrv]
      have hres : (handlerRefresh st authorization secret now).1
          = .err 401 "expired/revoked refresh token: %!s(<nil>)" := by
        unfold handlerRefresh
        simp only [htok, hGR, hcond, if_true]
      have husable : refreshUsable st tok now = false := by
        simp [refreshUsable, hGR, hrv]
      refine ⟨⟨?_, ?_⟩, fun _ => ⟨_, hres⟩⟩
      · rintro ⟨u, hu, hmint⟩
        rw [hres] at hmint
        cases hmint
      · intro habs
        rw [husable] at habs
        cases habs
    | none =>
      by_cases hexp : r.expiresAt < now
      · have hcond : (r.revokedAt.isSome || decide (r.expiresAt < now)) = true := by
          simp [hexp]
        have hres : (handlerRefresh st authorization secret now).1
            = .err 401 "expired/revoked refresh token: %!s(<nil>)" := by
          unfold handlerRefresh
          simp only [htok, hGR, hcond, if_true]
        have husable : refreshUsable st tok now = false := by
          simp [refreshUsable, hGR, hexp]
        refine ⟨⟨?_, ?_⟩, fun _ => ⟨_, hres⟩⟩
        · rintro ⟨u, hu, hmint⟩
          rw [hres] at hmint
          cases hmint
        · intro habs
          rw [husable] at habs
          cases habs
      · have hGRfind : st.refreshTokens.find? (fun x => decide (x.token = tok)) = some r := hGR
        have hmem : r ∈ st.refreshTokens := List.mem_of_find?_eq_some hGRfind
        obtain ⟨u0, hu0mem, hu0id⟩ := hwf r hmem
        obtain ⟨u1, hu1⟩ := find?_isSome_of_exists st.users
          (fun u => decide (u.id = r.userID)) ⟨u0, hu0mem, decide_eq_true hu0id⟩
        have hgu : GetUserFromRefreshToken st tok = some u1 := by
          rw [GetUserFromRefreshToken, hGR]
          exact hu1
        have hcond : (r.revokedAt.isSome || decide (r.expiresAt < now)) = false := by
          simp [hrv, hexp]
        have hres : (handlerRefresh st authorization secret now).1
            = .json 200 (MakeJWT u1.id secret 3600 now) := by
          unfold handlerRefresh
          simp only [htok, hGR, hcond, hgu]
          simp
        have husable : refreshUsable st tok now = true := by
          simp [refreshUsable, hGR, hrv, hexp]
        refine ⟨⟨fun _ => husable, fun _ => ⟨u1, hgu, hres⟩⟩, ?_⟩
        intro habs
        rw [husable] at habs
        cases habs

/-- The store of C1's concrete runs: user 7 owns an unrevoked refresh token
"tok7" expiring at instant 100. -/
def c1State : DBState :=
  ⟨[⟨⟨7⟩, 0, 0, "u@x.com", "h", false⟩], [], [⟨"tok7", 0, 0, ⟨7⟩, 100, none⟩]⟩

set_option maxRecDepth 40000 in
/-- C1 witness: the amended theorem at the concrete store, evaluated at
instant 50 (before the token's expiry). -/
theorem spec_c1_witness :
    ((∃ u, GetUserFromRefreshToken c1State "tok7" = some u ∧
        (handlerRefresh c1State "Bearer tok7" "sec" 50).1
          = .json 200 (MakeJWT u.id "sec" 3600 50))
      ↔ refreshUsable c1State "tok7" 50 = true)
    ∧ (refreshUsable c1State "tok7" 50 = false →
        ∃ m, (handlerRefresh c1State "Bearer tok7" "sec" 50).1 = .err 401 m) :=
  spec_c1_refresh_mints_iff_usable c1State "Bearer tok7" "sec" "tok7" 50
    (by decide) (by decide)

set_option maxRecDepth 40000 in
/-- C1 counterexample to the claim as stated: at the boundary instant
`now = expiresAt = 100` the stored record's `expiresAt` is not in the
future, yet the code (`ExpiresAt.Before(now)` is false at equality) still
mints and returns a fresh session token instead of the Unauthorized
failure the claim requires. -/
theorem spec_c1_boundary_counterexample :
    GetRefreshToken c1State "tok7" = some ⟨"tok7", 0, 0, ⟨7⟩, 100, none⟩
    ∧ ¬ (100 : Nat) < 100
    ∧ (handlerRefresh c1State "Bearer tok7" "sec" 100).1
        = .json 200 (MakeJWT ⟨7⟩ "sec" 3600 100) := by
  refine ⟨by decide, by decide, by decide⟩
